import Mathlib

/-!
Verification of the VideoLingo whisperX transcription pipeline
(`core/all_whisper_methods/whisperX.py`) against its specification.

The embedding models the two functions of the source file:
* `transcribe_audio` (lines 20-113): derives the inference configuration from
  the device capabilities, loads the model, cuts and transcribes one audio
  chunk, persists the detected language, checks the language-mismatch
  condition, aligns, frees GPU resources, and shifts all chunk-relative
  timestamps by the chunk start.
* `transcribe` (lines 115-151): the pipeline coordinator with its idempotent
  short-circuits, the Demucs separation stage, audio splitting, the sequential
  chunk loop, merging, and persistence of the results.

External collaborators (whisperx model calls, ffmpeg, librosa, Demucs,
persistence helpers defined in `whisperXapi.py`) are modelled by an
environment recording their outcomes, and the observable behaviour of a run
is a trace of events (model loads/frees, external calls) together with an
`Except` result mirroring Python exception propagation.
-/

namespace VideoLingo

/-- Numeric precision of the inference, `compute_type` in the source. -/
inductive Precision
  | float16
  | int8
  deriving DecidableEq

/-- Device capability descriptor: `torch.cuda.is_available()`,
`total_memory / 1024^3`, and `torch.cuda.is_bf16_supported()`. -/
structure CapabilityDescriptor where
  has_accelerator : Bool
  memory_gb : ℚ
  supports_half : Bool
  deriving DecidableEq

/-- Inference configuration chosen in lines 22-33 of the source. -/
structure InferenceConfig where
  batch_size : ℕ
  compute_type : Precision
  deriving DecidableEq

/-- Lines 22-33: on cuda, `batch_size = 16 if gpu_mem > 8 else 2` and
`compute_type = "float16" if torch.cuda.is_bf16_supported() else "int8"`;
otherwise `batch_size = 1` and `compute_type = "int8"`. -/
def deriveInferenceConfig (cap : CapabilityDescriptor) : InferenceConfig :=
  if cap.has_accelerator then
    { batch_size := if cap.memory_gb > 8 then 16 else 2
      compute_type := if cap.supports_half then Precision.float16 else Precision.int8 }
  else
    { batch_size := 1, compute_type := Precision.int8 }

/-- A word of an aligned segment: the timestamps are optional, mirroring the
`if 'start' in word` / `if 'end' in word` guards of lines 106-109. -/
structure Word where
  word : String
  start : Option ℚ
  end_ : Option ℚ
  deriving DecidableEq

/-- A transcription segment with its word list. -/
structure Segment where
  start : ℚ
  end_ : ℚ
  text : String
  words : List Word
  deriving DecidableEq

/-- Lines 106-109: shift the word timestamps that are present by the chunk
start; a missing timestamp stays missing. -/
def shiftWord (s : ℚ) (w : Word) : Word :=
  { w with start := w.start.map (· + s), end_ := w.end_.map (· + s) }

/-- Lines 102-109 (loop body): shift a segment and its words by the chunk
start. -/
def shiftSegment (s : ℚ) (seg : Segment) : Segment :=
  { seg with
      start := seg.start + s
      end_ := seg.end_ + s
      words := seg.words.map (shiftWord s) }

/-- Lines 101-109: the timestamp reconciliation over all segments of the
chunk result. -/
def adjustTimestamps (s : ℚ) (segs : List Segment) : List Segment :=
  segs.map (shiftSegment s)

/-- Which audio artifact a call operates on. -/
inductive AudioPath
  | rawAudio
  | vocalAudio
  | backgroundAudio
  deriving DecidableEq

/-- Observable events of a run, in program order. -/
inductive Event
  | deriveConfig (cfg : InferenceConfig)
  | loadModel
  | transcribeCall (audio : AudioPath)
  | freeModel
  | saveLanguage (lang : String)
  | loadAlignModel
  | alignCall
  | freeAlignModel
  | convertVideoToAudio
  | demucsCall
  | splitAudioCall (audio : AudioPath)
  | saveResultsCall
  deriving DecidableEq

/-- Errors propagated out of a chunk invocation: a failing external model
call, or the ValueError of line 91. -/
inductive TError
  | transcriptionError
  | languageMismatch
  deriving DecidableEq

/-- Run configuration: `load_key("whisper.language")` and the device
capabilities read from torch. -/
structure Config where
  whisperLanguage : String
  capability : CapabilityDescriptor
  deriving DecidableEq

/-- Outcomes of the external calls made for one chunk: whether
`model.transcribe` raises, the language it detects, whether alignment
raises, and the chunk-relative aligned segments it returns. -/
structure ChunkEnv where
  transcribeFails : Bool
  detectedLanguage : String
  alignFails : Bool
  segments : List Segment
  deriving DecidableEq

/-- Lines 20-113, `transcribe_audio`: derive the inference configuration,
load the model, transcribe the cut audio, free the model, persist the
detected language, raise on the language-mismatch condition of line 90,
align, free the alignment model, and shift all timestamps by `start`.
An exception at any step propagates (lines 111-113 re-raise), leaving the
event trace produced up to that point. -/
def transcribe_audio (cfg : Config) (audio_file : AudioPath) (c : ChunkEnv)
    (start fin : ℚ) : List Event × Except TError (List Segment) :=
  let _range : ℚ × ℚ := (start, fin)
  let ev0 := [Event.deriveConfig (deriveInferenceConfig cfg.capability),
              Event.loadModel, Event.transcribeCall audio_file]
  if c.transcribeFails then
    (ev0, Except.error TError.transcriptionError)
  else
    let ev1 := ev0 ++ [Event.freeModel, Event.saveLanguage c.detectedLanguage]
    if c.detectedLanguage == "zh" && !(cfg.whisperLanguage == "zh") then
      (ev1, Except.error TError.languageMismatch)
    else
      let ev2 := ev1 ++ [Event.loadAlignModel, Event.alignCall]
      if c.alignFails then
        (ev2, Except.error TError.transcriptionError)
      else
        (ev2 ++ [Event.freeAlignModel], Except.ok (adjustTimestamps start c.segments))

/-- Whether a chunk invocation fails, matching the error cases of
`transcribe_audio`. -/
def chunkFails (cfg : Config) (c : ChunkEnv) : Bool :=
  c.transcribeFails
    || (c.detectedLanguage == "zh" && !(cfg.whisperLanguage == "zh"))
    || c.alignFails

/-- The error a failing chunk invocation propagates: the mismatch check of
line 90 runs after a successful `model.transcribe` and before alignment. -/
def chunkError (cfg : Config) (c : ChunkEnv) : TError :=
  if c.transcribeFails then TError.transcriptionError
  else if c.detectedLanguage == "zh" && !(cfg.whisperLanguage == "zh") then
    TError.languageMismatch
  else TError.transcriptionError

/-- Filesystem / environment state of one run: existence of the final
transcript artifact `output/log/cleaned_chunks.xlsx` (line 116), of the
background- and vocal-audio artifacts, and the planned chunks together with
the outcomes of the external calls each chunk will make.  Each chunk is a
`(start, end)` range (from `split_audio`) paired with its `ChunkEnv`. -/
structure RunEnv where
  cleanedChunksExists : Bool
  backgroundExists : Bool
  vocalExists : Bool
  chunks : List ((ℚ × ℚ) × ChunkEnv)
  deriving DecidableEq

/-- Lines 140-143: the sequential chunk loop.  Each chunk is transcribed in
order; the first exception propagates immediately, ending the loop. -/
def runChunks (cfg : Config) (audio_file : AudioPath) :
    List ((ℚ × ℚ) × ChunkEnv) → List Event × Except TError (List (List Segment))
  | [] => ([], Except.ok [])
  | (range, c) :: rest =>
    let r := transcribe_audio cfg audio_file c range.1 range.2
    match r.2 with
    | Except.error e => (r.1, Except.error e)
    | Except.ok segs =>
      let rr := runChunks cfg audio_file rest
      (r.1 ++ rr.1, rr.2.map (fun l => segs :: l))

/-- Lines 144-148: merge all chunk results, concatenating the segment lists
in chunk order. -/
def combineResults (results : List (List Segment)) : List Segment :=
  results.flatten

/-- Lines 115-151, `transcribe`: if the final transcript artifact exists,
return immediately; otherwise convert the video to audio, run Demucs unless
the background-audio artifact exists, split the vocal audio, transcribe
every chunk sequentially, merge, and save the results.  Any exception from a
chunk propagates out of the function. -/
def transcribe (cfg : Config) (env : RunEnv) : List Event × Except TError Unit :=
  if env.cleanedChunksExists then ([], Except.ok ())
  else
    let ev0 := [Event.convertVideoToAudio]
    let ev1 := if env.backgroundExists then ev0 else ev0 ++ [Event.demucsCall]
    let ev2 := ev1 ++ [Event.splitAudioCall AudioPath.vocalAudio]
    let rr := runChunks cfg AudioPath.vocalAudio env.chunks
    match rr.2 with
    | Except.error e => (ev2 ++ rr.1, Except.error e)
    | Except.ok _ => (ev2 ++ rr.1 ++ [Event.saveResultsCall], Except.ok ())

/-- Number of events satisfying a predicate in a trace. -/
def countEvt (p : Event → Bool) (l : List Event) : ℕ :=
  (l.filter p).length

/-- Recognize a config-derivation event. -/
def Event.isDeriveConfig : Event → Bool
  | Event.deriveConfig _ => true
  | _ => false

/-- Recognize a whisper-model load. -/
def Event.isLoadModel : Event → Bool
  | Event.loadModel => true
  | _ => false

/-- Recognize a whisper-model release (`del model` + `empty_cache`). -/
def Event.isFreeModel : Event → Bool
  | Event.freeModel => true
  | _ => false

/-- Recognize an alignment-model load. -/
def Event.isLoadAlignModel : Event → Bool
  | Event.loadAlignModel => true
  | _ => false

/-- Recognize an alignment-model release. -/
def Event.isFreeAlignModel : Event → Bool
  | Event.freeAlignModel => true
  | _ => false

/-- Recognize a `save_language` call. -/
def Event.isSaveLanguage : Event → Bool
  | Event.saveLanguage _ => true
  | _ => false

/-- Recognize a `model.transcribe` call on an artifact other than the
vocal audio. -/
def Event.isNonVocalTranscribeCall : Event → Bool
  | Event.transcribeCall p => !(p == AudioPath.vocalAudio)
  | _ => false

/-- Modelled from the spec: the effect of the external collaborators on the
persisted artifacts.  `save_results` and `demucs_main` are defined in
`whisperXapi.py` / `demucs_vl.py`, outside the provided sources; per §6 the
pipeline "completes by writing the final transcript artifact" and the
separator "produces a vocal-only audio file and a background-only audio
file". -/
def applyEvent (env : RunEnv) : Event → RunEnv
  | Event.saveResultsCall => { env with cleanedChunksExists := true }
  | Event.demucsCall => { env with backgroundExists := true, vocalExists := true }
  | _ => env

/-- Fold the artifact effects of a whole trace over the run environment. -/
def applyEvents (env : RunEnv) (evs : List Event) : RunEnv :=
  evs.foldl applyEvent env

/-! ### Helper lemmas -/

theorem shiftWord_cancel (s : ℚ) (w : Word) : shiftWord (-s) (shiftWord s w) = w := by
  cases w with
  | mk t st en =>
    simp only [shiftWord, Option.map_map]
    cases st <;> cases en <;>
      simp [Option.map, Function.comp, add_neg_cancel_right]

theorem shiftSegment_cancel (s : ℚ) (seg : Segment) :
    shiftSegment (-s) (shiftSegment s seg) = seg := by
  have hw : (shiftWord (-s)) ∘ (shiftWord s) = id := funext fun w => shiftWord_cancel s w
  cases seg with
  | mk st en tx ws =>
    simp [shiftSegment, List.map_map, hw, add_neg_cancel_right]

theorem adjustTimestamps_cancel (s : ℚ) (res : List Segment) :
    adjustTimestamps (-s) (adjustTimestamps s res) = res := by
  have hseg : (shiftSegment (-s)) ∘ (shiftSegment s) = id :=
    funext fun seg => shiftSegment_cancel s seg
  simp [adjustTimestamps, List.map_map, hseg]

/-! ### Claim C7 -/

/-- Claim C7: the inference configuration is a pure function of the
capability descriptor: with no accelerator, `batch_size = 1` and precision is
the int8 fallback; with an accelerator, `batch_size = 16` when memory exceeds
8 GB and `2` otherwise, and precision is half precision when supported, else
the int8 fallback. -/
theorem C7_inference_config (cap : CapabilityDescriptor) :
    (cap.has_accelerator = false →
      deriveInferenceConfig cap = { batch_size := 1, compute_type := Precision.int8 })
    ∧ (cap.has_accelerator = true → 8 < cap.memory_gb →
      (deriveInferenceConfig cap).batch_size = 16)
    ∧ (cap.has_accelerator = true → ¬ 8 < cap.memory_gb →
      (deriveInferenceConfig cap).batch_size = 2)
    ∧ (cap.has_accelerator = true → cap.supports_half = true →
      (deriveInferenceConfig cap).compute_type = Precision.float16)
    ∧ (cap.has_accelerator = true → cap.supports_half = false →
      (deriveInferenceConfig cap).compute_type = Precision.int8) := by
  refine ⟨fun h1 => by simp [deriveInferenceConfig, h1], fun h1 h2 => ?_,
    fun h1 h2 => ?_, fun h1 h2 => ?_, fun h1 h2 => ?_⟩ <;>
    simp [deriveInferenceConfig, h1, h2]

/-- Witness for C7 at concrete capability descriptors. -/
theorem C7_inference_config_witness :
    deriveInferenceConfig ⟨false, 4, false⟩ = { batch_size := 1, compute_type := Precision.int8 }
    ∧ (deriveInferenceConfig ⟨true, 16, true⟩).batch_size = 16 :=
  ⟨(C7_inference_config ⟨false, 4, false⟩).1 rfl,
   (C7_inference_config ⟨true, 16, true⟩).2.1 rfl (by norm_num)⟩

/-! ### Claim C3 -/

/-- Claim C3: reconciliation applied once adds exactly the chunk start to
every segment start/end and to every defined word timestamp, leaves missing
word timestamps missing, preserves segment and word order and content
(no reordering, no merging), and subtracting the chunk start recovers the
input. -/
theorem C3_reconcile_shift (s : ℚ) (res : List Segment) (w : Word) :
    ((adjustTimestamps s res).map Segment.start = res.map (fun g => g.start + s))
    ∧ ((adjustTimestamps s res).map Segment.end_ = res.map (fun g => g.end_ + s))
    ∧ ((adjustTimestamps s res).map Segment.text = res.map Segment.text)
    ∧ ((adjustTimestamps s res).map (fun g => g.words.map Word.word)
        = res.map (fun g => g.words.map Word.word))
    ∧ ((shiftWord s w).start = w.start.map (fun t => t + s))
    ∧ ((shiftWord s w).end_ = w.end_.map (fun t => t + s))
    ∧ ((shiftWord s w).start = none ↔ w.start = none)
    ∧ ((shiftWord s w).end_ = none ↔ w.end_ = none)
    ∧ adjustTimestamps (-s) (adjustTimestamps s res) = res := by
  refine ⟨?_, ?_, ?_, ?_, rfl, rfl, ?_, ?_, adjustTimestamps_cancel s res⟩
  · simp [adjustTimestamps, shiftSegment, List.map_map, Function.comp]
  · simp [adjustTimestamps, shiftSegment, List.map_map, Function.comp]
  · simp [adjustTimestamps, shiftSegment, List.map_map, Function.comp]
  · simp [adjustTimestamps, shiftSegment, shiftWord, List.map_map, Function.comp]
  · cases h : w.start <;> simp [shiftWord, h]
  · cases h : w.end_ <;> simp [shiftWord, h]

/-- The result of a chunk invocation, normalized through `chunkFails` and
`chunkError`. -/
theorem transcribe_audio_snd (cfg : Config) (p : AudioPath) (c : ChunkEnv) (s f : ℚ) :
    (transcribe_audio cfg p c s f).2 =
      (if chunkFails cfg c then Except.error (chunkError cfg c)
       else Except.ok (adjustTimestamps s c.segments)) := by
  by_cases h1 : c.transcribeFails = true
  · simp [transcribe_audio, chunkFails, chunkError, h1]
  · rw [Bool.not_eq_true] at h1
    by_cases h2 : (c.detectedLanguage == "zh" && !(cfg.whisperLanguage == "zh")) = true
    · simp [transcribe_audio, chunkFails, chunkError, h1, h2]
    · rw [Bool.not_eq_true] at h2
      by_cases h3 : c.alignFails = true
      · simp [transcribe_audio, chunkFails, chunkError, h1, h2, h3]
      · rw [Bool.not_eq_true] at h3
        simp [transcribe_audio, chunkFails, chunkError, h1, h2, h3]

/-- A chunk invocation ends in the language-mismatch error exactly when the
transcription call succeeds, the detected language is "zh", and the
configured language is not "zh" (line 90 of the source). -/
theorem transcribe_audio_mismatch_iff (cfg : Config) (p : AudioPath) (c : ChunkEnv)
    (s f : ℚ) :
    (transcribe_audio cfg p c s f).2 = Except.error TError.languageMismatch ↔
      c.transcribeFails = false ∧ c.detectedLanguage = "zh" ∧ cfg.whisperLanguage ≠ "zh" := by
  rw [transcribe_audio_snd]
  by_cases h1 : c.transcribeFails = true
  · simp [chunkFails, chunkError, h1]
  · rw [Bool.not_eq_true] at h1
    by_cases h2 : (c.detectedLanguage == "zh" && !(cfg.whisperLanguage == "zh")) = true
    · have h2' : c.detectedLanguage = "zh" ∧ cfg.whisperLanguage ≠ "zh" := by
        simpa [Bool.and_eq_true, Bool.not_eq_true', beq_iff_eq,
          beq_eq_false_iff_ne] using h2
      simp [chunkFails, chunkError, h1, h2, h2'.1, h2'.2]
    · have h2' : ¬(c.detectedLanguage = "zh" ∧ cfg.whisperLanguage ≠ "zh") := by
        intro hc
        apply h2
        simp [beq_iff_eq, hc.1, Bool.not_eq_true', beq_eq_false_iff_ne, hc.2]
      rw [Bool.not_eq_true] at h2
      by_cases h3 : c.alignFails = true
      · simp [chunkFails, chunkError, h1, h2, h3, h2']
      · rw [Bool.not_eq_true] at h3
        simp [chunkFails, chunkError, h1, h2, h3, h2']

/-- The event trace of a chunk invocation: a prefix for each step reached,
cut off at the first failing step. -/
theorem transcribe_audio_fst (cfg : Config) (p : AudioPath) (c : ChunkEnv) (s f : ℚ) :
    (transcribe_audio cfg p c s f).1 =
      [Event.deriveConfig (deriveInferenceConfig cfg.capability),
       Event.loadModel, Event.transcribeCall p]
      ++ (if c.transcribeFails = true then []
          else [Event.freeModel, Event.saveLanguage c.detectedLanguage]
            ++ (if (c.detectedLanguage == "zh" && !(cfg.whisperLanguage == "zh")) = true then []
                else [Event.loadAlignModel, Event.alignCall]
                  ++ (if c.alignFails = true then [] else [Event.freeAlignModel]))) := by
  by_cases h1 : c.transcribeFails = true
  · simp [transcribe_audio, h1]
  · rw [Bool.not_eq_true] at h1
    by_cases h2 : (c.detectedLanguage == "zh" && !(cfg.whisperLanguage == "zh")) = true
    · simp [transcribe_audio, h1, h2]
    · rw [Bool.not_eq_true] at h2
      by_cases h3 : c.alignFails = true
      · simp [transcribe_audio, h1, h2, h3]
      · rw [Bool.not_eq_true] at h3
        simp [transcribe_audio, h1, h2, h3]

theorem countEvt_append (q : Event → Bool) (l1 l2 : List Event) :
    countEvt q (l1 ++ l2) = countEvt q l1 + countEvt q l2 := by
  simp [countEvt, List.filter_append]

theorem countEvt_flatten (q : Event → Bool) (l : List (List Event)) :
    countEvt q l.flatten = (l.map (countEvt q)).sum := by
  induction l with
  | nil => simp [countEvt]
  | cons x xs ih => simp [List.flatten_cons, countEvt_append, ih]

/-- Event count of a chunk invocation trace, for an arbitrary predicate. -/
theorem transcribe_audio_countEvt (q : Event → Bool) (cfg : Config) (p : AudioPath)
    (c : ChunkEnv) (s f : ℚ) :
    countEvt q (transcribe_audio cfg p c s f).1 =
      countEvt q [Event.deriveConfig (deriveInferenceConfig cfg.capability),
                  Event.loadModel, Event.transcribeCall p]
      + (if c.transcribeFails = true then 0
         else countEvt q [Event.freeModel, Event.saveLanguage c.detectedLanguage]
           + (if (c.detectedLanguage == "zh" && !(cfg.whisperLanguage == "zh")) = true then 0
              else countEvt q [Event.loadAlignModel, Event.alignCall]
                + (if c.alignFails = true then 0
                   else countEvt q [Event.freeAlignModel]))) := by
  rw [transcribe_audio_fst, countEvt_append]
  by_cases h1 : c.transcribeFails = true
  · simp [h1, countEvt]
  · rw [Bool.not_eq_true] at h1
    by_cases h2 : (c.detectedLanguage == "zh" && !(cfg.whisperLanguage == "zh")) = true
    · simp [h1, h2, countEvt_append, countEvt]
    · rw [Bool.not_eq_true] at h2
      by_cases h3 : c.alignFails = true
      · simp [h1, h2, h3, countEvt_append, countEvt]
        rw [show (Event.freeModel :: Event.saveLanguage c.detectedLanguage ::
              Event.loadAlignModel :: Event.alignCall :: ([] : List Event))
            = [Event.freeModel, Event.saveLanguage c.detectedLanguage]
              ++ [Event.loadAlignModel, Event.alignCall] from rfl,
          List.filter_append, List.length_append]
      · rw [Bool.not_eq_true] at h3
        simp [h1, h2, h3, countEvt_append, countEvt]
        rw [show (Event.freeModel :: Event.saveLanguage c.detectedLanguage ::
              Event.loadAlignModel :: Event.alignCall :: Event.freeAlignModel
              :: ([] : List Event))
            = [Event.freeModel, Event.saveLanguage c.detectedLanguage]
              ++ [Event.loadAlignModel, Event.alignCall, Event.freeAlignModel] from rfl,
          List.filter_append, List.length_append,
          show ([Event.loadAlignModel, Event.alignCall, Event.freeAlignModel] : List Event)
            = [Event.loadAlignModel, Event.alignCall] ++ [Event.freeAlignModel] from rfl,
          List.filter_append, List.length_append]

/-- Every chunk invocation derives the inference configuration exactly
once. -/
theorem transcribe_audio_count_derive (cfg : Config) (p : AudioPath) (c : ChunkEnv)
    (s f : ℚ) :
    countEvt Event.isDeriveConfig (transcribe_audio cfg p c s f).1 = 1 := by
  rw [transcribe_audio_countEvt]
  simp [countEvt, Event.isDeriveConfig]

/-- Every chunk invocation loads the whisper model exactly once. -/
theorem transcribe_audio_count_load (cfg : Config) (p : AudioPath) (c : ChunkEnv)
    (s f : ℚ) :
    countEvt Event.isLoadModel (transcribe_audio cfg p c s f).1 = 1 := by
  rw [transcribe_audio_countEvt]
  simp [countEvt, Event.isLoadModel]

/-- Recognize the events a chunk invocation can emit (as opposed to the
coordinator-level events). -/
def Event.isChunkEvent : Event → Bool
  | Event.deriveConfig _ => true
  | Event.loadModel => true
  | Event.transcribeCall _ => true
  | Event.freeModel => true
  | Event.saveLanguage _ => true
  | Event.loadAlignModel => true
  | Event.alignCall => true
  | Event.freeAlignModel => true
  | _ => false

/-- Chunk invocations emit only chunk-level events: never a Demucs call, an
audio split, or a `save_results` call. -/
theorem transcribe_audio_chunkEvents (cfg : Config) (p : AudioPath) (c : ChunkEnv)
    (s f : ℚ) :
    ∀ e ∈ (transcribe_audio cfg p c s f).1, Event.isChunkEvent e = true := by
  intro e he
  rw [transcribe_audio_fst] at he
  by_cases h1 : c.transcribeFails = true
  · simp [h1] at he
    rcases he with rfl | rfl | rfl <;> rfl
  · rw [Bool.not_eq_true] at h1
    by_cases h2 : (c.detectedLanguage == "zh" && !(cfg.whisperLanguage == "zh")) = true
    · simp [h1, h2] at he
      rcases he with rfl | rfl | rfl | rfl | rfl <;> rfl
    · rw [Bool.not_eq_true] at h2
      by_cases h3 : c.alignFails = true
      · simp [h1, h2, h3] at he
        rcases he with rfl | rfl | rfl | rfl | rfl | rfl | rfl <;> rfl
      · rw [Bool.not_eq_true] at h3
        simp [h1, h2, h3] at he
        rcases he with rfl | rfl | rfl | rfl | rfl | rfl | rfl | rfl <;> rfl

/-! ### Claim C1 -/

/-- Claim C1 counterexample: with configured expected language "zh" and a
chunk whose transcription detects "en" (a concrete language different from
"zh"), the chunk invocation does not raise the language-mismatch error: it
succeeds. -/
theorem C1_counterexample :
    ("en" : String) ≠ "zh"
    ∧ (transcribe_audio ⟨"zh", ⟨false, 4, false⟩⟩ AudioPath.vocalAudio
        ⟨false, "en", false, []⟩ 0 10).2 = Except.ok [] := by
  constructor
  · decide
  · rfl

/-- Claim C1 (amended): when the configured expected language is "zh", the
language-mismatch error is never raised, whatever language a chunk detects;
the check of line 90 fires only when the detected language is "zh" and the
configured language is not "zh". -/
theorem C1_amended_no_mismatch_for_zh (cfg : Config) (p : AudioPath) (c : ChunkEnv)
    (s f : ℚ) (h : cfg.whisperLanguage = "zh") :
    (transcribe_audio cfg p c s f).2 ≠ Except.error TError.languageMismatch := by
  intro hcontra
  rcases (transcribe_audio_mismatch_iff cfg p c s f).mp hcontra with ⟨-, -, hne⟩
  exact hne h

/-- Witness for the amended C1 at a concrete configuration and chunk. -/
theorem C1_amended_no_mismatch_for_zh_witness :
    (transcribe_audio ⟨"zh", ⟨false, 4, false⟩⟩ AudioPath.vocalAudio
        ⟨false, "en", false, []⟩ 0 10).2 ≠ Except.error TError.languageMismatch :=
  C1_amended_no_mismatch_for_zh ⟨"zh", ⟨false, 4, false⟩⟩ AudioPath.vocalAudio
    ⟨false, "en", false, []⟩ 0 10 rfl

/-! ### Claim C2 -/

/-- Claim C2 counterexample: with configured expected language "auto" and a
chunk whose transcription detects "zh", the chunk invocation raises the
language-mismatch error. -/
theorem C2_counterexample :
    (transcribe_audio ⟨"auto", ⟨false, 4, false⟩⟩ AudioPath.vocalAudio
        ⟨false, "zh", false, []⟩ 0 10).2 = Except.error TError.languageMismatch := by
  rfl

/-- Claim C2 (amended): with configured expected language "auto", the
language-mismatch error is raised exactly when a chunk's transcription call
succeeds and detects "zh"; for any other detected language no mismatch is
raised. -/
theorem C2_amended_auto_mismatch (cap : CapabilityDescriptor) (p : AudioPath)
    (c : ChunkEnv) (s f : ℚ) :
    (transcribe_audio ⟨"auto", cap⟩ p c s f).2 = Except.error TError.languageMismatch ↔
      c.transcribeFails = false ∧ c.detectedLanguage = "zh" := by
  rw [transcribe_audio_mismatch_iff]
  have hauto : ("auto" : String) ≠ "zh" := by decide
  simp [hauto]

/-- Witness for the amended C2: the mismatch fires at a concrete "auto"
configuration with detected "zh". -/
theorem C2_amended_auto_mismatch_witness :
    (transcribe_audio ⟨"auto", ⟨true, 16, true⟩⟩ AudioPath.vocalAudio
        ⟨false, "zh", false, []⟩ 0 10).2 = Except.error TError.languageMismatch :=
  (C2_amended_auto_mismatch ⟨true, 16, true⟩ AudioPath.vocalAudio
    ⟨false, "zh", false, []⟩ 0 10).mpr ⟨rfl, rfl⟩

/-! ### Claim C6 -/

/-- Claim C6 counterexample: when the transcription model call raises, the
chunk invocation propagates the error with the loaded whisper model still
unreleased: the trace holds one model load and no model release, so the
failure path does not release the accelerator memory before returning. -/
theorem C6_counterexample :
    (transcribe_audio ⟨"en", ⟨true, 16, true⟩⟩ AudioPath.vocalAudio
        ⟨true, "en", false, []⟩ 0 10).2 = Except.error TError.transcriptionError
    ∧ countEvt Event.isLoadModel (transcribe_audio ⟨"en", ⟨true, 16, true⟩⟩
        AudioPath.vocalAudio ⟨true, "en", false, []⟩ 0 10).1 = 1
    ∧ countEvt Event.isFreeModel (transcribe_audio ⟨"en", ⟨true, 16, true⟩⟩
        AudioPath.vocalAudio ⟨true, "en", false, []⟩ 0 10).1 = 0 :=
  ⟨rfl, rfl, rfl⟩

/-- Claim C6 (amended): model memory is released before returning on the
success path and on the language-mismatch path, but not on every failure
path: when the transcription call raises, the whisper model is not released,
and when the alignment call raises, the alignment model is not released. -/
theorem C6_amended_cleanup (cfg : Config) (p : AudioPath) (c : ChunkEnv) (s f : ℚ) :
    (chunkFails cfg c = false →
      countEvt Event.isLoadModel (transcribe_audio cfg p c s f).1
        = countEvt Event.isFreeModel (transcribe_audio cfg p c s f).1
      ∧ countEvt Event.isLoadAlignModel (transcribe_audio cfg p c s f).1
        = countEvt Event.isFreeAlignModel (transcribe_audio cfg p c s f).1)
    ∧ (c.transcribeFails = true →
      countEvt Event.isLoadModel (transcribe_audio cfg p c s f).1 = 1
      ∧ countEvt Event.isFreeModel (transcribe_audio cfg p c s f).1 = 0)
    ∧ (c.transcribeFails = false →
        (c.detectedLanguage == "zh" && !(cfg.whisperLanguage == "zh")) = false →
        c.alignFails = true →
      countEvt Event.isLoadAlignModel (transcribe_audio cfg p c s f).1 = 1
      ∧ countEvt Event.isFreeAlignModel (transcribe_audio cfg p c s f).1 = 0)
    ∧ (c.transcribeFails = false →
        (c.detectedLanguage == "zh" && !(cfg.whisperLanguage == "zh")) = true →
      countEvt Event.isLoadModel (transcribe_audio cfg p c s f).1
        = countEvt Event.isFreeModel (transcribe_audio cfg p c s f).1
      ∧ countEvt Event.isLoadAlignModel (transcribe_audio cfg p c s f).1 = 0) := by
  refine ⟨?_, ?_, ?_, ?_⟩
  · intro h
    simp only [chunkFails, Bool.or_eq_false_iff] at h
    obtain ⟨⟨h1, h2⟩, h3⟩ := h
    constructor <;>
      · simp only [transcribe_audio_countEvt]
        simp [h1, h2, h3, countEvt, Event.isLoadModel, Event.isFreeModel,
          Event.isLoadAlignModel, Event.isFreeAlignModel]
  · intro h1
    constructor <;>
      · simp only [transcribe_audio_countEvt]
        simp [h1, countEvt, Event.isLoadModel, Event.isFreeModel]
  · intro h1 h2 h3
    constructor <;>
      · simp only [transcribe_audio_countEvt]
        simp [h1, h2, h3, countEvt, Event.isLoadAlignModel, Event.isFreeAlignModel]
  · intro h1 h2
    constructor <;>
      · simp only [transcribe_audio_countEvt]
        simp [h1, h2, countEvt, Event.isLoadModel, Event.isFreeModel,
          Event.isLoadAlignModel]

/-- Witness for the amended C6: a successful chunk invocation has balanced
model loads and releases. -/
theorem C6_amended_cleanup_witness :
    countEvt Event.isLoadModel (transcribe_audio ⟨"en", ⟨false, 4, false⟩⟩
        AudioPath.vocalAudio ⟨false, "en", false, []⟩ 0 10).1
      = countEvt Event.isFreeModel (transcribe_audio ⟨"en", ⟨false, 4, false⟩⟩
        AudioPath.vocalAudio ⟨false, "en", false, []⟩ 0 10).1
    ∧ countEvt Event.isLoadAlignModel (transcribe_audio ⟨"en", ⟨false, 4, false⟩⟩
        AudioPath.vocalAudio ⟨false, "en", false, []⟩ 0 10).1
      = countEvt Event.isFreeAlignModel (transcribe_audio ⟨"en", ⟨false, 4, false⟩⟩
        AudioPath.vocalAudio ⟨false, "en", false, []⟩ 0 10).1 :=
  (C6_amended_cleanup ⟨"en", ⟨false, 4, false⟩⟩ AudioPath.vocalAudio
    ⟨false, "en", false, []⟩ 0 10).1 rfl

/-! ### Run-level lemmas -/

/-- When every chunk succeeds, the chunk loop concatenates all chunk traces
and returns the reconciled results of all chunks in order. -/
theorem runChunks_ok (cfg : Config) (p : AudioPath) :
    ∀ chunks : List ((ℚ × ℚ) × ChunkEnv),
      (∀ x ∈ chunks, chunkFails cfg x.2 = false) →
      (runChunks cfg p chunks).1
          = (chunks.map (fun x => (transcribe_audio cfg p x.2 x.1.1 x.1.2).1)).flatten
        ∧ (runChunks cfg p chunks).2
          = Except.ok (chunks.map (fun x => adjustTimestamps x.1.1 x.2.segments))
  | [], _ => by simp [runChunks]
  | (range, c) :: rest, h => by
      have hc : chunkFails cfg c = false := h (range, c) (List.mem_cons_self _ _)
      have hres : (transcribe_audio cfg p c range.1 range.2).2
          = Except.ok (adjustTimestamps range.1 c.segments) := by
        rw [transcribe_audio_snd, hc]
        simp
      have ih := runChunks_ok cfg p rest (fun x hx => h x (List.mem_cons_of_mem _ hx))
      simp [runChunks, hres, ih.1, ih.2, Except.map]

/-- When the chunks before `rc` all succeed and `rc` fails, the chunk loop
stops at `rc`: its trace covers exactly the prefix and the failing chunk,
and it propagates the failing chunk's error. -/
theorem runChunks_error (cfg : Config) (p : AudioPath) :
    ∀ (pre : List ((ℚ × ℚ) × ChunkEnv)) (rc : (ℚ × ℚ) × ChunkEnv)
      (post : List ((ℚ × ℚ) × ChunkEnv)),
      (∀ x ∈ pre, chunkFails cfg x.2 = false) →
      chunkFails cfg rc.2 = true →
      (runChunks cfg p (pre ++ rc :: post)).1
          = (pre.map (fun x => (transcribe_audio cfg p x.2 x.1.1 x.1.2).1)).flatten
            ++ (transcribe_audio cfg p rc.2 rc.1.1 rc.1.2).1
        ∧ (runChunks cfg p (pre ++ rc :: post)).2 = Except.error (chunkError cfg rc.2)
  | [], rc, post, _, hfail => by
      obtain ⟨range, c⟩ := rc
      have hfail' : chunkFails cfg c = true := hfail
      have hres : (transcribe_audio cfg p c range.1 range.2).2
          = Except.error (chunkError cfg c) := by
        rw [transcribe_audio_snd, hfail']
        simp
      simp [runChunks, hres]
  | x :: pre, rc, post, hpre, hfail => by
      obtain ⟨range, c⟩ := x
      have hc : chunkFails cfg c = false := hpre (range, c) (List.mem_cons_self _ _)
      have hres : (transcribe_audio cfg p c range.1 range.2).2
          = Except.ok (adjustTimestamps range.1 c.segments) := by
        rw [transcribe_audio_snd, hc]
        simp
      have ih := runChunks_error cfg p pre rc post
        (fun y hy => hpre y (List.mem_cons_of_mem _ hy)) hfail
      simp [runChunks, hres, ih.1, ih.2, List.append_assoc, Except.map]

/-- The chunk loop emits only chunk-level events. -/
theorem runChunks_chunkEvents (cfg : Config) (p : AudioPath) :
    ∀ chunks, ∀ e ∈ (runChunks cfg p chunks).1, Event.isChunkEvent e = true
  | [] => by simp [runChunks]
  | (range, c) :: rest => by
      intro e he
      cases hres : (transcribe_audio cfg p c range.1 range.2).2 with
      | error err =>
          simp only [runChunks, hres] at he
          exact transcribe_audio_chunkEvents cfg p c range.1 range.2 e he
      | ok segs =>
          simp only [runChunks, hres, List.mem_append] at he
          rcases he with he | he
          · exact transcribe_audio_chunkEvents cfg p c range.1 range.2 e he
          · exact runChunks_chunkEvents cfg p rest e he

/-- Unfolding of the coordinator on a run that is not short-circuited by the
final transcript artifact: the trace is the conversion (plus Demucs when the
background artifact is missing), the split of the vocal audio, the chunk
loop's trace, and — only on success — the `save_results` call. -/
theorem transcribe_unfold (cfg : Config) (env : RunEnv)
    (h : env.cleanedChunksExists = false) :
    transcribe cfg env =
      (((if env.backgroundExists = true then [Event.convertVideoToAudio]
         else [Event.convertVideoToAudio, Event.demucsCall])
        ++ [Event.splitAudioCall AudioPath.vocalAudio])
        ++ (runChunks cfg AudioPath.vocalAudio env.chunks).1
        ++ (match (runChunks cfg AudioPath.vocalAudio env.chunks).2 with
            | Except.error _ => []
            | Except.ok _ => [Event.saveResultsCall]),
       match (runChunks cfg AudioPath.vocalAudio env.chunks).2 with
       | Except.error e => Except.error e
       | Except.ok _ => Except.ok ()) := by
  cases hres : (runChunks cfg AudioPath.vocalAudio env.chunks).2 with
  | error e =>
      by_cases hb : env.backgroundExists = true
      · simp [transcribe, h, hb, hres]
      · rw [Bool.not_eq_true] at hb
        simp [transcribe, h, hb, hres]
  | ok results =>
      by_cases hb : env.backgroundExists = true
      · simp [transcribe, h, hb, hres, List.append_assoc]
      · rw [Bool.not_eq_true] at hb
        simp [transcribe, h, hb, hres, List.append_assoc]

/-- No event ever clears the final-transcript artifact. -/
theorem applyEvent_cleaned_mono (env : RunEnv) (e : Event)
    (h : env.cleanedChunksExists = true) :
    (applyEvent env e).cleanedChunksExists = true := by
  cases e <;> simp [applyEvent, h]

/-- After folding a trace, the final-transcript artifact exists if it
existed before or the trace holds a `save_results` call. -/
theorem applyEvents_cleaned_of_mem :
    ∀ (evs : List Event) (env : RunEnv),
      env.cleanedChunksExists = true ∨ Event.saveResultsCall ∈ evs →
      (applyEvents env evs).cleanedChunksExists = true
  | [], env, h => by
      rcases h with h | h
      · exact h
      · simp at h
  | e :: rest, env, h => by
      have hstep : (applyEvent env e).cleanedChunksExists = true
          ∨ Event.saveResultsCall ∈ rest := by
        rcases h with h | h
        · exact Or.inl (applyEvent_cleaned_mono env e h)
        · rcases List.mem_cons.mp h with h | h
          · rw [← h]
            exact Or.inl (by simp [applyEvent])
          · exact Or.inr h
      simpa [applyEvents, List.foldl_cons] using
        applyEvents_cleaned_of_mem rest (applyEvent env e) hstep

theorem sum_map_const_one {α : Type} (g : α → ℕ) :
    ∀ l : List α, (∀ x ∈ l, g x = 1) → (l.map g).sum = l.length
  | [], _ => by simp
  | a :: as, h => by
      simp [h a (List.mem_cons_self _ _),
        sum_map_const_one g as (fun x hx => h x (List.mem_cons_of_mem _ hx)),
        Nat.add_comm]

/-- `save_language` is called once per chunk invocation whose transcription
call succeeds — even when the mismatch check or alignment then fails — and
never when the transcription call itself raises. -/
theorem transcribe_audio_count_saveLanguage (cfg : Config) (p : AudioPath)
    (c : ChunkEnv) (s f : ℚ) :
    countEvt Event.isSaveLanguage (transcribe_audio cfg p c s f).1
      = if c.transcribeFails = true then 0 else 1 := by
  rw [transcribe_audio_countEvt]
  by_cases h1 : c.transcribeFails = true
  · simp [h1, countEvt, Event.isSaveLanguage]
  · rw [Bool.not_eq_true] at h1
    simp [h1, countEvt, Event.isSaveLanguage]

/-- A chunk invocation on the vocal audio never calls the transcription
model on another audio artifact. -/
theorem transcribe_audio_count_nonvocal (cfg : Config) (c : ChunkEnv) (s f : ℚ) :
    countEvt Event.isNonVocalTranscribeCall
      (transcribe_audio cfg AudioPath.vocalAudio c s f).1 = 0 := by
  rw [transcribe_audio_countEvt]
  simp [countEvt, Event.isNonVocalTranscribeCall]

/-- Any configuration-derivation event of a chunk trace carries the
configuration derived from the run's capability descriptor. -/
theorem transcribe_audio_derive_val (cfg : Config) (p : AudioPath) (c : ChunkEnv)
    (s f : ℚ) (ic : InferenceConfig)
    (hmem : Event.deriveConfig ic ∈ (transcribe_audio cfg p c s f).1) :
    ic = deriveInferenceConfig cfg.capability := by
  rw [transcribe_audio_fst] at hmem
  by_cases h1 : c.transcribeFails = true
  · simp [h1] at hmem
    exact hmem
  · rw [Bool.not_eq_true] at h1
    by_cases h2 : (c.detectedLanguage == "zh" && !(cfg.whisperLanguage == "zh")) = true
    · simp [h1, h2] at hmem
      exact hmem
    · rw [Bool.not_eq_true] at h2
      by_cases h3 : c.alignFails = true
      · simp [h1, h2, h3] at hmem
        exact hmem
      · rw [Bool.not_eq_true] at h3
        simp [h1, h2, h3] at hmem
        exact hmem

/-- Any `save_language` event of a chunk trace carries that chunk's detected
language. -/
theorem transcribe_audio_saveLanguage_val (cfg : Config) (p : AudioPath)
    (c : ChunkEnv) (s f : ℚ) (lang : String)
    (hmem : Event.saveLanguage lang ∈ (transcribe_audio cfg p c s f).1) :
    lang = c.detectedLanguage := by
  rw [transcribe_audio_fst] at hmem
  by_cases h1 : c.transcribeFails = true
  · simp [h1] at hmem
  · rw [Bool.not_eq_true] at h1
    by_cases h2 : (c.detectedLanguage == "zh" && !(cfg.whisperLanguage == "zh")) = true
    · simp [h1, h2] at hmem
      exact hmem
    · rw [Bool.not_eq_true] at h2
      by_cases h3 : c.alignFails = true
      · simp [h1, h2, h3] at hmem
        exact hmem
      · rw [Bool.not_eq_true] at h3
        simp [h1, h2, h3] at hmem
        exact hmem

/-- The chunk loop derives the configuration exactly as often as it loads
the model: once per chunk invocation. -/
theorem runChunks_derive_eq_load (cfg : Config) (p : AudioPath) :
    ∀ chunks, countEvt Event.isDeriveConfig (runChunks cfg p chunks).1
      = countEvt Event.isLoadModel (runChunks cfg p chunks).1
  | [] => by simp [runChunks, countEvt]
  | (range, c) :: rest => by
      cases hres : (transcribe_audio cfg p c range.1 range.2).2 with
      | error e =>
          simp only [runChunks, hres]
          rw [transcribe_audio_count_derive, transcribe_audio_count_load]
      | ok segs =>
          simp only [runChunks, hres]
          rw [countEvt_append, countEvt_append,
            transcribe_audio_count_derive, transcribe_audio_count_load,
            runChunks_derive_eq_load cfg p rest]

/-- Any configuration-derivation event of the chunk loop carries the
configuration derived from the run's capability descriptor. -/
theorem runChunks_derive_val (cfg : Config) (p : AudioPath) :
    ∀ chunks (ic : InferenceConfig),
      Event.deriveConfig ic ∈ (runChunks cfg p chunks).1 →
      ic = deriveInferenceConfig cfg.capability
  | [], ic => by simp [runChunks]
  | (range, c) :: rest, ic => by
      intro hmem
      cases hres : (transcribe_audio cfg p c range.1 range.2).2 with
      | error e =>
          simp only [runChunks, hres] at hmem
          exact transcribe_audio_derive_val cfg p c range.1 range.2 ic hmem
      | ok segs =>
          simp only [runChunks, hres, List.mem_append] at hmem
          rcases hmem with hmem | hmem
          · exact transcribe_audio_derive_val cfg p c range.1 range.2 ic hmem
          · exact runChunks_derive_val cfg p rest ic hmem

/-- Any `save_language` event of the chunk loop carries the language
detected by one of the run's chunks. -/
theorem runChunks_saveLanguage_val (cfg : Config) (p : AudioPath) :
    ∀ chunks (lang : String),
      Event.saveLanguage lang ∈ (runChunks cfg p chunks).1 →
      ∃ x ∈ chunks, lang = x.2.detectedLanguage
  | [], lang => by simp [runChunks]
  | (range, c) :: rest, lang => by
      intro hmem
      cases hres : (transcribe_audio cfg p c range.1 range.2).2 with
      | error e =>
          simp only [runChunks, hres] at hmem
          exact ⟨(range, c), List.mem_cons_self _ _,
            transcribe_audio_saveLanguage_val cfg p c range.1 range.2 lang hmem⟩
      | ok segs =>
          simp only [runChunks, hres, List.mem_append] at hmem
          rcases hmem with hmem | hmem
          · exact ⟨(range, c), List.mem_cons_self _ _,
              transcribe_audio_saveLanguage_val cfg p c range.1 range.2 lang hmem⟩
          · obtain ⟨x, hx, hval⟩ := runChunks_saveLanguage_val cfg p rest lang hmem
            exact ⟨x, List.mem_cons_of_mem _ hx, hval⟩

/-- For a predicate false on every coordinator-level event, the event count
of a non-skipped run equals the count over the chunk loop alone. -/
theorem transcribe_countEvt_chunkOnly (q : Event → Bool) (cfg : Config) (env : RunEnv)
    (h : env.cleanedChunksExists = false)
    (hconv : q Event.convertVideoToAudio = false)
    (hdem : q Event.demucsCall = false)
    (hsplit : q (Event.splitAudioCall AudioPath.vocalAudio) = false)
    (hsave : q Event.saveResultsCall = false) :
    countEvt q (transcribe cfg env).1
      = countEvt q (runChunks cfg AudioPath.vocalAudio env.chunks).1 := by
  have hpre : countEvt q
      ((if env.backgroundExists = true then [Event.convertVideoToAudio]
        else [Event.convertVideoToAudio, Event.demucsCall])
       ++ [Event.splitAudioCall AudioPath.vocalAudio]) = 0 := by
    by_cases hb : env.backgroundExists = true
    · simp [hb, countEvt, hconv, hsplit]
    · rw [Bool.not_eq_true] at hb
      simp [hb, countEvt, hconv, hdem, hsplit]
  rw [transcribe_unfold cfg env h]
  cases hres : (runChunks cfg AudioPath.vocalAudio env.chunks).2 with
  | error e =>
      simp only [hres, List.append_nil]
      rw [countEvt_append, hpre]
      simp
  | ok results =>
      simp only [hres]
      rw [countEvt_append, countEvt_append, hpre]
      simp [countEvt, hsave]

/-! ### Concrete runs used by witnesses and counterexamples -/

/-- A chunk whose external calls all succeed, detecting English. -/
def okChunk : ChunkEnv := ⟨false, "en", false, []⟩

/-- A chunk whose transcription model call raises. -/
def badChunk : ChunkEnv := ⟨true, "en", false, []⟩

/-- An English-language configuration on a CPU-only device. -/
def cfgEn : Config := ⟨"en", ⟨false, 4, false⟩⟩

/-- A fresh two-chunk run whose chunks both succeed (separation artifacts
already present). -/
def envTwoChunks : RunEnv := ⟨false, true, true, [((0, 10), okChunk), ((10, 20), okChunk)]⟩

/-- A fresh two-chunk run whose second chunk fails. -/
def envFailSecond : RunEnv := ⟨false, true, true, [((0, 10), okChunk), ((10, 20), badChunk)]⟩

/-- A run whose final transcript artifact already exists. -/
def envDone : RunEnv := ⟨true, false, false, [((0, 10), okChunk)]⟩

/-! ### Claim C4 -/

/-- Claim C4: if a chunk's invocation raises (transcription failure or
language mismatch) after all previous chunks succeeded, the coordinator
propagates that chunk's error, processes no further chunk (the whisper model
is loaded once per chunk reached, i.e. `pre.length + 1` times), and never
invokes `save_results`. -/
theorem C4_failfast (cfg : Config) (env : RunEnv)
    (pre post : List ((ℚ × ℚ) × ChunkEnv)) (rc : (ℚ × ℚ) × ChunkEnv)
    (henv : env.cleanedChunksExists = false)
    (hchunks : env.chunks = pre ++ rc :: post)
    (hpre : ∀ x ∈ pre, chunkFails cfg x.2 = false)
    (hfail : chunkFails cfg rc.2 = true) :
    (transcribe cfg env).2 = Except.error (chunkError cfg rc.2)
    ∧ Event.saveResultsCall ∉ (transcribe cfg env).1
    ∧ countEvt Event.isLoadModel (transcribe cfg env).1 = pre.length + 1 := by
  have hrun := runChunks_error cfg AudioPath.vocalAudio pre rc post hpre hfail
  rw [← hchunks] at hrun
  refine ⟨?_, ?_, ?_⟩
  · rw [transcribe_unfold cfg env henv]
    simp [hrun.2]
  · rw [transcribe_unfold cfg env henv]
    intro hmem
    simp only [hrun.2, List.append_nil] at hmem
    rcases List.mem_append.mp hmem with hmem2 | hmem2
    · rcases List.mem_append.mp hmem2 with hmem3 | hmem3
      · by_cases hb : env.backgroundExists = true
        · simp [hb] at hmem3
        · rw [Bool.not_eq_true] at hb
          simp [hb] at hmem3
      · simp at hmem3
    · have hce := runChunks_chunkEvents cfg AudioPath.vocalAudio env.chunks _ hmem2
      simp [Event.isChunkEvent] at hce
  · have hq : countEvt Event.isLoadModel (transcribe cfg env).1
        = countEvt Event.isLoadModel (runChunks cfg AudioPath.vocalAudio env.chunks).1 :=
      transcribe_countEvt_chunkOnly Event.isLoadModel cfg env henv rfl rfl rfl rfl
    rw [hq, hrun.1, countEvt_append, countEvt_flatten, List.map_map,
      transcribe_audio_count_load]
    have hones : ((pre.map (countEvt Event.isLoadModel ∘
        fun x => (transcribe_audio cfg AudioPath.vocalAudio x.2 x.1.1 x.1.2).1))).sum
        = pre.length := by
      apply sum_map_const_one
      intro x hx
      exact transcribe_audio_count_load cfg AudioPath.vocalAudio x.2 x.1.1 x.1.2
    rw [hones]

/-- Witness for C4: a concrete two-chunk run whose second chunk's
transcription raises. -/
theorem C4_failfast_witness :
    (transcribe cfgEn envFailSecond).2 = Except.error (chunkError cfgEn badChunk)
    ∧ Event.saveResultsCall ∉ (transcribe cfgEn envFailSecond).1
    ∧ countEvt Event.isLoadModel (transcribe cfgEn envFailSecond).1 = 1 + 1 :=
  C4_failfast cfgEn envFailSecond [((0, 10), okChunk)] [] ((10, 20), badChunk)
    rfl rfl (by decide) rfl

/-! ### Claim C5 -/

/-- Claim C5: when the final transcript artifact exists, the coordinator
returns immediately with an empty trace — no separation, no audio split, no
model invocation; consequently, re-running the coordinator on the state left
by a successful run performs no work at all. -/
theorem C5_idempotent (cfg cfg2 : Config) (env : RunEnv) :
    (env.cleanedChunksExists = true → transcribe cfg env = ([], Except.ok ()))
    ∧ ((transcribe cfg env).2 = Except.ok () →
        transcribe cfg2 (applyEvents env (transcribe cfg env).1) = ([], Except.ok ())) := by
  constructor
  · intro h
    simp [transcribe, h]
  · intro hok
    have hdone : (applyEvents env (transcribe cfg env).1).cleanedChunksExists = true := by
      by_cases hc : env.cleanedChunksExists = true
      · exact applyEvents_cleaned_of_mem _ env (Or.inl hc)
      · rw [Bool.not_eq_true] at hc
        apply applyEvents_cleaned_of_mem _ env
        right
        cases hres : (runChunks cfg AudioPath.vocalAudio env.chunks).2 with
        | error e =>
            exfalso
            rw [transcribe_unfold cfg env hc] at hok
            simp [hres] at hok
        | ok results =>
            rw [transcribe_unfold cfg env hc]
            simp [hres]
    generalize hA : applyEvents env (transcribe cfg env).1 = A at hdone ⊢
    simp [transcribe, hdone]

/-- Witness for C5: the concrete already-complete run is skipped, and
re-running after a successful two-chunk run is skipped as well. -/
theorem C5_idempotent_witness :
    transcribe cfgEn envDone = ([], Except.ok ())
    ∧ transcribe cfgEn (applyEvents envTwoChunks (transcribe cfgEn envTwoChunks).1)
        = ([], Except.ok ()) :=
  ⟨(C5_idempotent cfgEn cfgEn envDone).1 rfl,
   (C5_idempotent cfgEn cfgEn envTwoChunks).2 rfl⟩

/-- The chunk loop on the vocal audio never calls the transcription model on
another audio artifact. -/
theorem runChunks_count_nonvocal (cfg : Config) :
    ∀ chunks, countEvt Event.isNonVocalTranscribeCall
      (runChunks cfg AudioPath.vocalAudio chunks).1 = 0
  | [] => by simp [runChunks, countEvt]
  | (range, c) :: rest => by
      cases hres : (transcribe_audio cfg AudioPath.vocalAudio c range.1 range.2).2 with
      | error e =>
          simp only [runChunks, hres]
          exact transcribe_audio_count_nonvocal cfg c range.1 range.2
      | ok segs =>
          simp only [runChunks, hres]
          rw [countEvt_append, transcribe_audio_count_nonvocal,
            runChunks_count_nonvocal cfg rest]

/-! ### Claim C8 -/

/-- Claim C8 counterexample: a successful two-chunk run derives the
inference configuration twice — once per chunk invocation — not exactly once
per run before chunk processing. -/
theorem C8_counterexample :
    (transcribe cfgEn envTwoChunks).2 = Except.ok ()
    ∧ countEvt Event.isDeriveConfig (transcribe cfgEn envTwoChunks).1 = 2 :=
  ⟨rfl, rfl⟩

/-- Claim C8 (amended): the inference configuration is derived anew at each
chunk invocation — a run's derivation count equals its model-load count, one
per chunk reached — and every derivation yields the same pure function of
the run's capability descriptor. -/
theorem C8_amended_derive_per_chunk (cfg : Config) (env : RunEnv) :
    countEvt Event.isDeriveConfig (transcribe cfg env).1
      = countEvt Event.isLoadModel (transcribe cfg env).1
    ∧ (∀ ic, Event.deriveConfig ic ∈ (transcribe cfg env).1 →
        ic = deriveInferenceConfig cfg.capability) := by
  by_cases hc : env.cleanedChunksExists = true
  · constructor
    · simp [transcribe, hc, countEvt]
    · intro ic hmem
      simp [transcribe, hc] at hmem
  · rw [Bool.not_eq_true] at hc
    constructor
    · rw [transcribe_countEvt_chunkOnly Event.isDeriveConfig cfg env hc rfl rfl rfl rfl,
        transcribe_countEvt_chunkOnly Event.isLoadModel cfg env hc rfl rfl rfl rfl]
      exact runChunks_derive_eq_load cfg AudioPath.vocalAudio env.chunks
    · intro ic hmem
      cases hres : (runChunks cfg AudioPath.vocalAudio env.chunks).2 with
      | error e =>
          rw [transcribe_unfold cfg env hc] at hmem
          by_cases hb : env.backgroundExists = true
          · simp [hres, hb] at hmem
            exact runChunks_derive_val cfg AudioPath.vocalAudio env.chunks ic hmem
          · rw [Bool.not_eq_true] at hb
            simp [hres, hb] at hmem
            exact runChunks_derive_val cfg AudioPath.vocalAudio env.chunks ic hmem
      | ok results =>
          rw [transcribe_unfold cfg env hc] at hmem
          by_cases hb : env.backgroundExists = true
          · simp [hres, hb] at hmem
            exact runChunks_derive_val cfg AudioPath.vocalAudio env.chunks ic hmem
          · rw [Bool.not_eq_true] at hb
            simp [hres, hb] at hmem
            exact runChunks_derive_val cfg AudioPath.vocalAudio env.chunks ic hmem

/-- Witness for the amended C8 on the concrete two-chunk run. -/
theorem C8_amended_derive_per_chunk_witness :
    countEvt Event.isDeriveConfig (transcribe cfgEn envTwoChunks).1
      = countEvt Event.isLoadModel (transcribe cfgEn envTwoChunks).1
    ∧ ({ batch_size := 1, compute_type := Precision.int8 } : InferenceConfig)
        = deriveInferenceConfig cfgEn.capability :=
  ⟨(C8_amended_derive_per_chunk cfgEn envTwoChunks).1,
   (C8_amended_derive_per_chunk cfgEn envTwoChunks).2
     { batch_size := 1, compute_type := Precision.int8 } (by decide)⟩

/-! ### Claim C9 -/

/-- Claim C9 counterexample: a successful two-chunk run invokes
`save_language` twice — once per chunk, during chunk processing — not
exactly once during the merge step. -/
theorem C9_counterexample :
    (transcribe cfgEn envTwoChunks).2 = Except.ok ()
    ∧ countEvt Event.isSaveLanguage (transcribe cfgEn envTwoChunks).1 = 2 :=
  ⟨rfl, rfl⟩

/-- Claim C9 (amended): the detected language is persisted once per chunk
whose transcription call succeeds, at chunk-processing time (line 89, before
the mismatch check and alignment), the persisted value being that chunk's
detected language; a fully successful N-chunk run therefore persists it N
times, not once at merge time. -/
theorem C9_amended_save_language_per_chunk (cfg : Config) (p : AudioPath)
    (c : ChunkEnv) (s f : ℚ) (env : RunEnv) :
    (countEvt Event.isSaveLanguage (transcribe_audio cfg p c s f).1
      = if c.transcribeFails = true then 0 else 1)
    ∧ (∀ lang, Event.saveLanguage lang ∈ (transcribe_audio cfg p c s f).1 →
        lang = c.detectedLanguage)
    ∧ (env.cleanedChunksExists = false →
        (∀ x ∈ env.chunks, chunkFails cfg x.2 = false) →
        countEvt Event.isSaveLanguage (transcribe cfg env).1 = env.chunks.length) := by
  refine ⟨transcribe_audio_count_saveLanguage cfg p c s f,
    fun lang hmem => transcribe_audio_saveLanguage_val cfg p c s f lang hmem,
    fun hc hall => ?_⟩
  rw [transcribe_countEvt_chunkOnly Event.isSaveLanguage cfg env hc rfl rfl rfl rfl,
    (runChunks_ok cfg AudioPath.vocalAudio env.chunks hall).1,
    countEvt_flatten, List.map_map]
  apply sum_map_const_one
  intro x hx
  have hx2 : x.2.transcribeFails = false := by
    have hsub := hall x hx
    simp only [chunkFails, Bool.or_eq_false_iff] at hsub
    exact hsub.1.1
  simp [Function.comp, transcribe_audio_count_saveLanguage, hx2]

/-- Witness for the amended C9 on a concrete chunk and the concrete
two-chunk run. -/
theorem C9_amended_save_language_per_chunk_witness :
    (countEvt Event.isSaveLanguage
        (transcribe_audio cfgEn AudioPath.vocalAudio okChunk 0 10).1
      = if okChunk.transcribeFails = true then 0 else 1)
    ∧ countEvt Event.isSaveLanguage (transcribe cfgEn envTwoChunks).1
        = envTwoChunks.chunks.length :=
  ⟨(C9_amended_save_language_per_chunk cfgEn AudioPath.vocalAudio okChunk 0 10
      envTwoChunks).1,
   (C9_amended_save_language_per_chunk cfgEn AudioPath.vocalAudio okChunk 0 10
      envTwoChunks).2.2 rfl (by decide)⟩

/-! ### Claim C10 -/

/-- Claim C10: on a non-skipped run, the separation stage runs exactly when
the background-audio artifact is missing; the vocal-audio artifact's
existence is never consulted (the run is unchanged under flipping it); and
the pipeline then splits and transcribes the vocal-audio artifact only. -/
theorem C10_separation_skip (cfg : Config) (env : RunEnv) (b : Bool)
    (h : env.cleanedChunksExists = false) :
    ((Event.demucsCall ∈ (transcribe cfg env).1) ↔ env.backgroundExists = false)
    ∧ transcribe cfg { env with vocalExists := b } = transcribe cfg env
    ∧ Event.splitAudioCall AudioPath.vocalAudio ∈ (transcribe cfg env).1
    ∧ countEvt Event.isNonVocalTranscribeCall (transcribe cfg env).1 = 0 := by
  refine ⟨⟨?_, ?_⟩, ?_, ?_, ?_⟩
  · intro hmem
    by_contra hbg
    rw [Bool.not_eq_false] at hbg
    cases hres : (runChunks cfg AudioPath.vocalAudio env.chunks).2 with
    | error e =>
        rw [transcribe_unfold cfg env h] at hmem
        simp [hres, hbg] at hmem
        have hce := runChunks_chunkEvents cfg AudioPath.vocalAudio env.chunks _ hmem
        simp [Event.isChunkEvent] at hce
    | ok results =>
        rw [transcribe_unfold cfg env h] at hmem
        simp [hres, hbg] at hmem
        have hce := runChunks_chunkEvents cfg AudioPath.vocalAudio env.chunks _ hmem
        simp [Event.isChunkEvent] at hce
  · intro hbg
    cases hres : (runChunks cfg AudioPath.vocalAudio env.chunks).2 with
    | error e =>
        rw [transcribe_unfold cfg env h]
        simp [hres, hbg]
    | ok results =>
        rw [transcribe_unfold cfg env h]
        simp [hres, hbg]
  · obtain ⟨ce, bg, vo, ch⟩ := env
    simp [transcribe]
  · cases hres : (runChunks cfg AudioPath.vocalAudio env.chunks).2 with
    | error e =>
        rw [transcribe_unfold cfg env h]
        by_cases hb : env.backgroundExists = true
        · simp [hres, hb]
        · rw [Bool.not_eq_true] at hb
          simp [hres, hb]
    | ok results =>
        rw [transcribe_unfold cfg env h]
        by_cases hb : env.backgroundExists = true
        · simp [hres, hb]
        · rw [Bool.not_eq_true] at hb
          simp [hres, hb]
  · rw [transcribe_countEvt_chunkOnly Event.isNonVocalTranscribeCall cfg env h
      rfl rfl rfl rfl]
    exact runChunks_count_nonvocal cfg env.chunks

/-- Witness for C10 on the concrete two-chunk run whose background artifact
exists. -/
theorem C10_separation_skip_witness :
    ((Event.demucsCall ∈ (transcribe cfgEn envTwoChunks).1)
      ↔ envTwoChunks.backgroundExists = false)
    ∧ transcribe cfgEn { envTwoChunks with vocalExists := false }
        = transcribe cfgEn envTwoChunks
    ∧ Event.splitAudioCall AudioPath.vocalAudio ∈ (transcribe cfgEn envTwoChunks).1
    ∧ countEvt Event.isNonVocalTranscribeCall (transcribe cfgEn envTwoChunks).1 = 0 :=
  C10_separation_skip cfgEn envTwoChunks false rfl

end VideoLingo
